import Mathlib

/-!
Shallow embedding of the FinOps dashboard backend
(`src/engine/finopsEngine.ts`, `src/jobs/scheduler.ts`,
`src/services/costsService.ts` and the shared type declarations in
`src/aws/types.ts`).

Modelling conventions:
- JavaScript numbers are modelled as exact rationals (`ℚ`); timestamps
  (JS `Date` / epoch milliseconds) as integers (`ℤ`).
- `Record<string, T>` bags are association lists.
- `Math.round(x * 100) / 100` is `round2`; `Math.floor` is `Int.floor`.
- Internal clock reads (`new Date()` / `Date.now()`) become explicit
  `now` parameters of the embedded functions.
- Description strings follow the source wording, with numeric
  interpolation (`toFixed`, `toLocaleString`, `toISOString`) rendered
  through `toString` and punctuation simplified.
- Database rows live in lists; the Prisma upsert / updateMany /
  `$transaction` contracts (the only properties of the store the code
  relies on) are modelled explicitly as pure state transformers.
-/

namespace Finops

/-- A schema-less JSON-ish metadata value (`Record<string, unknown>` bags). -/
inductive JsonVal where
  | str (s : String)
  | num (q : ℚ)
  | bool (b : Bool)
  deriving DecidableEq, Repr

/-- JS `Math.round` (round half up), as used by the source on non-negative values. -/
def jsRound (q : ℚ) : ℤ := ⌊q + 1 / 2⌋

/-- Source `Math.round(x * 100) / 100`: round to two decimal places. -/
def round2 (q : ℚ) : ℚ := ((jsRound (q * 100) : ℤ) : ℚ) / 100

/-- Source `Math.round(x * 10) / 10` (used for the S3 metadata `sizeGB` field). -/
def round1 (q : ℚ) : ℚ := ((jsRound (q * 10) : ℤ) : ℚ) / 10

/-- JS truthiness of an optional string (`undefined` and the empty string are falsy). -/
def jsTruthy (o : Option String) : Bool :=
  match o with
  | none => false
  | some s => !s.isEmpty

/-- Source `tags[key] || fallback` with JS truthiness. -/
def tagOr (tags : List (String × String)) (key fallback : String) : String :=
  match tags.lookup key with
  | some v => if v.isEmpty then fallback else v
  | none => fallback

-- ── The analysis-input descriptor types (src/aws/types.ts) ──

structure EC2Instance where
  instanceId : String
  instanceType : String
  state : String
  launchTime : ℤ
  tags : List (String × String)
  platform : String
  deriving DecidableEq, Repr

structure CloudWatchMetric where
  instanceId : String
  averageCpuPercent : ℚ
  maxCpuPercent : ℚ
  periodDays : ℚ
  deriving DecidableEq, Repr

structure EBSAttachment where
  instanceId : String
  state : String
  deriving DecidableEq, Repr

structure EBSVolume where
  volumeId : String
  size : ℚ
  volumeType : String
  state : String
  attachments : List EBSAttachment
  createTime : ℤ
  deriving DecidableEq, Repr

structure S3BucketInfo where
  bucketName : String
  region : String
  sizeBytes : ℚ
  objectCount : ℤ
  lastAccessedDays : ℚ
  storageClass : String
  deriving DecidableEq, Repr

structure RDSInstance where
  dbInstanceId : String
  dbInstanceClass : String
  engine : String
  status : String
  allocatedStorage : ℚ
  averageCpuPercent : ℚ
  averageConnections : ℚ
  multiAZ : Bool
  deriving DecidableEq, Repr

structure LambdaFunction where
  functionName : String
  runtime : String
  memoryMB : ℚ
  timeoutSeconds : ℚ
  codeSize : ℚ
  lastModified : String
  avgInvocationsPerDay : ℚ
  avgDurationMs : ℚ
  deriving DecidableEq, Repr

structure LoadBalancerInfo where
  loadBalancerArn : String
  loadBalancerName : String
  type : String
  state : String
  createdAt : ℤ
  activeTargetCount : ℤ
  totalTargetCount : ℤ
  requestCountPerDay : ℚ
  deriving DecidableEq, Repr

structure NatGatewayInfo where
  natGatewayId : String
  state : String
  subnetId : String
  vpcId : String
  createdAt : ℤ
  bytesProcessedPerDay : ℚ
  deriving DecidableEq, Repr

structure ElasticIPInfo where
  allocationId : String
  publicIp : String
  associationId : Option String
  instanceId : Option String
  domain : String
  deriving DecidableEq, Repr

/-- The three-level confidence label. -/
inductive Confidence where
  | low
  | medium
  | high
  deriving DecidableEq, Repr, Inhabited

/-- Source `RecommendationInput` (src/engine/finopsEngine.ts). -/
structure RecommendationInput where
  type : String
  resourceId : String
  description : String
  estimatedMonthlySavings : ℚ
  confidence : Confidence
  metadata : Option (List (String × JsonVal))
  deriving DecidableEq, Repr, Inhabited

-- ── Pricing references (src/engine/finopsEngine.ts lines 28-86) ──

def EC2_HOURLY_PRICES : List (String × ℚ) :=
  [("t3.micro", 0.0104), ("t3.small", 0.0208), ("t3.medium", 0.0416),
   ("t3.large", 0.0832), ("m5.large", 0.096), ("m5.xlarge", 0.192),
   ("m5.2xlarge", 0.384), ("c5.large", 0.085), ("c5.xlarge", 0.17),
   ("c5.2xlarge", 0.34), ("r5.large", 0.126), ("r5.xlarge", 0.252),
   ("r5.2xlarge", 0.504)]

def HOURS_IN_MONTH : ℚ := 730

def CONSERVATIVE_FACTOR : ℚ := 0.6

def EBS_MONTHLY_PER_GIB : List (String × ℚ) :=
  [("gp2", 0.10), ("gp3", 0.08), ("io1", 0.125), ("io2", 0.125),
   ("st1", 0.045), ("sc1", 0.015)]

def S3_STANDARD_PER_GB : ℚ := 0.023

def S3_GLACIER_PER_GB : ℚ := 0.004

def RDS_HOURLY_PRICES : List (String × ℚ) :=
  [("db.t3.micro", 0.017), ("db.t3.small", 0.034), ("db.t3.medium", 0.068),
   ("db.m5.large", 0.171), ("db.m5.xlarge", 0.342), ("db.r5.large", 0.24),
   ("db.r5.xlarge", 0.48), ("db.r5.2xlarge", 0.96)]

def LAMBDA_PRICE_PER_GB_SECOND : ℚ := 0.0000166667

def LAMBDA_FREE_TIER_GB_SECONDS : ℚ := 400000

def NAT_GATEWAY_HOURLY : ℚ := 0.045

def NAT_GATEWAY_PER_GB : ℚ := 0.045

def ELASTIC_IP_HOURLY_UNUSED : ℚ := 0.005

def ALB_HOURLY : ℚ := 0.0225

def NLB_HOURLY : ℚ := 0.0225

/-- Bytes per GB as used throughout the source: `1024 * 1024 * 1024`. -/
def BYTES_PER_GB : ℚ := 1024 * 1024 * 1024

-- ── Cost calculation helpers (src/engine/finopsEngine.ts lines 90-139) ──

/-- Source `getEc2InstanceCost`: 0 for non-running instances, else table lookup with
`?? 0` fallback, times 730. -/
def getEc2InstanceCost (inst : EC2Instance) : ℚ :=
  if inst.state ≠ "running" then 0
  else ((EC2_HOURLY_PRICES.lookup inst.instanceType).getD 0) * HOURS_IN_MONTH

/-- Source `getEbsVolumeCost`: per-GiB table with `?? 0.1` fallback, times size. -/
def getEbsVolumeCost (volume : EBSVolume) : ℚ :=
  volume.size * ((EBS_MONTHLY_PER_GIB.lookup volume.volumeType).getD 0.1)

/-- Source `getS3BucketCost`. -/
def getS3BucketCost (bucket : S3BucketInfo) : ℚ :=
  bucket.sizeBytes / BYTES_PER_GB * S3_STANDARD_PER_GB

/-- Source `getRdsInstanceCost`: 0 for non-available instances, else table lookup with
`?? 0` fallback, times 730. -/
def getRdsInstanceCost (inst : RDSInstance) : ℚ :=
  if inst.status ≠ "available" then 0
  else ((RDS_HOURLY_PRICES.lookup inst.dbInstanceClass).getD 0) * HOURS_IN_MONTH

/-- Source `getLambdaFunctionCost`. -/
def getLambdaFunctionCost (fn : LambdaFunction) : ℚ :=
  if fn.avgInvocationsPerDay = 0 then 0
  else
    let dailyGBSeconds := fn.avgInvocationsPerDay * (fn.avgDurationMs / 1000) * (fn.memoryMB / 1024)
    let monthlyGBSeconds := dailyGBSeconds * 30
    let billableGBSeconds := max 0 (monthlyGBSeconds - LAMBDA_FREE_TIER_GB_SECONDS)
    billableGBSeconds * LAMBDA_PRICE_PER_GB_SECOND

/-- Source `getLoadBalancerCost`. -/
def getLoadBalancerCost (lb : LoadBalancerInfo) : ℚ :=
  (if lb.type = "network" then NLB_HOURLY else ALB_HOURLY) * HOURS_IN_MONTH

/-- Source `getNatGatewayCost`. -/
def getNatGatewayCost (nat : NatGatewayInfo) : ℚ :=
  let fixedCost := NAT_GATEWAY_HOURLY * HOURS_IN_MONTH
  let dailyGB := nat.bytesProcessedPerDay / BYTES_PER_GB
  let dataTransferCost := dailyGB * 30 * NAT_GATEWAY_PER_GB
  fixedCost + dataTransferCost

/-- Source `getElasticIPCost`: 0 when the EIP is associated (JS truthiness on
`associationId`). -/
def getElasticIPCost (eip : ElasticIPInfo) : ℚ :=
  if jsTruthy eip.associationId then 0
  else ELASTIC_IP_HOURLY_UNUSED * HOURS_IN_MONTH

-- ── Analyzer library (src/engine/finopsEngine.ts lines 195-611) ──

/-- Source `new Map(metrics.map((m) => [m.instanceId, m]))` followed by `.get(id)`:
for duplicate ids the last entry wins. -/
def metricsMapGet (metrics : List CloudWatchMetric) (id : String) : Option CloudWatchMetric :=
  metrics.foldl (fun acc m => if m.instanceId = id then some m else acc) none

/-- The recommendation `analyzeEC2Downsizing` pushes for a qualifying instance
and its metric. -/
def ec2DownsizeRec (inst : EC2Instance) (metric : CloudWatchMetric) :
    RecommendationInput :=
  let currentPrice := (EC2_HOURLY_PRICES.lookup inst.instanceType).getD 0.192
  let savings := currentPrice * HOURS_IN_MONTH * 0.5 * CONSERVATIVE_FACTOR
  let confidence :=
    if metric.averageCpuPercent < 5 then Confidence.high else Confidence.medium
  let name := tagOr inst.tags ("Name") inst.instanceId
  { type := "EC2_DOWN_SIZE"
    resourceId := inst.instanceId
    description := "Instance \"" ++ name ++ "\" (" ++ inst.instanceType ++
      ") has average CPU utilization of " ++ toString metric.averageCpuPercent ++
      "% over the last " ++ toString metric.periodDays ++
      " days. Consider downsizing to a smaller instance type or stopping if unused."
    estimatedMonthlySavings := round2 savings
    confidence := confidence
    metadata := some [("instanceType", JsonVal.str inst.instanceType),
                      ("averageCpu", JsonVal.num metric.averageCpuPercent),
                      ("maxCpu", JsonVal.num metric.maxCpuPercent),
                      ("name", JsonVal.str name)] }

/-- Loop body of `analyzeEC2Downsizing` for one instance. -/
def ec2DownsizeStep (metrics : List CloudWatchMetric) (inst : EC2Instance) :
    Option RecommendationInput :=
  if inst.state ≠ "running" then none
  else
    match metricsMapGet metrics inst.instanceId with
    | none => none
    | some metric =>
      if metric.periodDays < 14 then none
      else if metric.averageCpuPercent < 10 then some (ec2DownsizeRec inst metric)
      else none

/-- Heuristic 1: `analyzeEC2Downsizing`. -/
def analyzeEC2Downsizing (instances : List EC2Instance) (metrics : List CloudWatchMetric) :
    List RecommendationInput :=
  instances.filterMap (ec2DownsizeStep metrics)

/-- Source `Math.floor((now - createTime) / (1000*60*60*24))`. -/
def daysSinceCreation (now createTime : ℤ) : ℤ :=
  ⌊((now - createTime : ℤ) : ℚ) / (1000 * 60 * 60 * 24)⌋

/-- Loop body of `analyzeEBSOrphaned` for one volume. The source reads
`const now = new Date()` at the top of the function; the clock read is the
`now` parameter here. -/
def ebsOrphanStep (now : ℤ) (volume : EBSVolume) : Option RecommendationInput :=
  if volume.state ≠ "available" ∨ volume.attachments.length > 0 then none
  else
    let days := daysSinceCreation now volume.createTime
    if days > 7 then
      let pricePerGiB := (EBS_MONTHLY_PER_GIB.lookup volume.volumeType).getD 0.10
      let savings := volume.size * pricePerGiB
      some { type := "EBS_ORPHAN"
             resourceId := volume.volumeId
             description := "EBS volume " ++ volume.volumeId ++ " (" ++ volume.volumeType ++
               ", " ++ toString volume.size ++ " GiB) has been detached for " ++
               toString days ++
               " days. Consider creating a snapshot and deleting the volume to save on storage costs."
             estimatedMonthlySavings := round2 savings
             confidence := Confidence.high
             metadata := some [("volumeType", JsonVal.str volume.volumeType),
                               ("sizeGiB", JsonVal.num volume.size),
                               ("daysSinceCreation", JsonVal.num (days : ℚ))] }
    else none

/-- Heuristic 2: `analyzeEBSOrphaned`. -/
def analyzeEBSOrphaned (volumes : List EBSVolume) (now : ℤ) : List RecommendationInput :=
  volumes.filterMap (ebsOrphanStep now)

/-- Loop body of `analyzeS3Lifecycle` for one bucket. -/
def s3LifecycleStep (bucket : S3BucketInfo) : Option RecommendationInput :=
  if bucket.lastAccessedDays > 90 ∧ bucket.storageClass = "STANDARD" then
    let sizeGB := bucket.sizeBytes / BYTES_PER_GB
    let savings := sizeGB * (S3_STANDARD_PER_GB - S3_GLACIER_PER_GB) * CONSERVATIVE_FACTOR
    some { type := "S3_LIFECYCLE"
           resourceId := bucket.bucketName
           description := "Bucket \"" ++ bucket.bucketName ++ "\" has " ++
             toString bucket.objectCount ++ " objects (" ++ toString sizeGB ++
             " GB) that have not been accessed in " ++ toString bucket.lastAccessedDays ++
             " days. Consider adding a lifecycle policy to transition to Glacier or Glacier Deep Archive."
           estimatedMonthlySavings := round2 savings
           confidence := Confidence.medium
           metadata := some [("bucketName", JsonVal.str bucket.bucketName),
                             ("sizeGB", JsonVal.num (round1 sizeGB)),
                             ("objectCount", JsonVal.num (bucket.objectCount : ℚ)),
                             ("lastAccessedDays", JsonVal.num bucket.lastAccessedDays)] }
  else none

/-- Heuristic 3: `analyzeS3Lifecycle`. -/
def analyzeS3Lifecycle (buckets : List S3BucketInfo) : List RecommendationInput :=
  buckets.filterMap s3LifecycleStep

/-- Loop body of `analyzeRDSDownsizing` for one instance. -/
def rdsDownsizeStep (inst : RDSInstance) : Option RecommendationInput :=
  if inst.status ≠ "available" then none
  else if inst.averageCpuPercent < 15 ∧ inst.averageConnections < 10 then
    let currentPrice := (RDS_HOURLY_PRICES.lookup inst.dbInstanceClass).getD 0.342
    let savings := currentPrice * HOURS_IN_MONTH * 0.5 * CONSERVATIVE_FACTOR
    let confidence :=
      if inst.averageCpuPercent < 5 ∧ inst.averageConnections < 3 then Confidence.high
      else Confidence.medium
    some { type := "RDS_DOWN_SIZE"
           resourceId := inst.dbInstanceId
           description := "RDS instance \"" ++ inst.dbInstanceId ++ "\" (" ++
             inst.dbInstanceClass ++ ", " ++ inst.engine ++ ") has average CPU of " ++
             toString inst.averageCpuPercent ++ "% and " ++
             toString inst.averageConnections ++
             " avg connections. Consider downsizing to a smaller instance class" ++
             (if inst.multiAZ then " or disabling Multi-AZ if not needed" else "") ++ "."
           estimatedMonthlySavings := round2 savings
           confidence := confidence
           metadata := some [("dbInstanceClass", JsonVal.str inst.dbInstanceClass),
                             ("engine", JsonVal.str inst.engine),
                             ("averageCpu", JsonVal.num inst.averageCpuPercent),
                             ("avgConnections", JsonVal.num inst.averageConnections),
                             ("multiAZ", JsonVal.bool inst.multiAZ)] }
  else none

/-- Heuristic 4: `analyzeRDSDownsizing`. -/
def analyzeRDSDownsizing (instances : List RDSInstance) : List RecommendationInput :=
  instances.filterMap rdsDownsizeStep

/-- Loop body of `analyzeLambdaOptimization` for one function (the source pushes
at most one recommendation per function: the zero-invocation branch ends with
`continue`). -/
def lambdaStep (fn : LambdaFunction) : Option RecommendationInput :=
  if fn.avgInvocationsPerDay = 0 then
    let memoryGB := fn.memoryMB / 1024
    let estimatedSavings := memoryGB * fn.timeoutSeconds * 100 * LAMBDA_PRICE_PER_GB_SECOND * 30
    some { type := "LAMBDA_UNUSED"
           resourceId := fn.functionName
           description := "Lambda function \"" ++ fn.functionName ++ "\" (" ++ fn.runtime ++
             ", " ++ toString fn.memoryMB ++
             "MB) has had zero invocations over the last 14 days. Consider deleting or disabling it to reduce clutter and potential security surface."
           estimatedMonthlySavings := round2 estimatedSavings
           confidence := Confidence.high
           metadata := some [("functionName", JsonVal.str fn.functionName),
                             ("runtime", JsonVal.str fn.runtime),
                             ("memoryMB", JsonVal.num fn.memoryMB),
                             ("timeoutSeconds", JsonVal.num fn.timeoutSeconds),
                             ("lastModified", JsonVal.str fn.lastModified)] }
  else if fn.memoryMB ≥ 512 ∧ fn.avgDurationMs > 0 then
    let memoryGB := fn.memoryMB / 1024
    let rightsizedMemoryMB : ℤ := max 128 ⌈fn.memoryMB / 3⌉
    let rightsizedMemoryGB := (rightsizedMemoryMB : ℚ) / 1024
    let currentGBSeconds := fn.avgInvocationsPerDay * (fn.avgDurationMs / 1000) * memoryGB * 30
    let rightsizedGBSeconds :=
      fn.avgInvocationsPerDay * (fn.avgDurationMs / 1000) * rightsizedMemoryGB * 30
    if fn.avgDurationMs < 100 ∧ fn.memoryMB ≥ 512 then
      let savings := max 0 (currentGBSeconds - rightsizedGBSeconds) * LAMBDA_PRICE_PER_GB_SECOND
      if savings > 0.5 then
        some { type := "LAMBDA_OVERSIZED"
               resourceId := fn.functionName
               description := "Lambda function \"" ++ fn.functionName ++ "\" (" ++
                 toString fn.memoryMB ++ "MB) has an average duration of " ++
                 toString fn.avgDurationMs ++ "ms. Consider reducing memory to ~" ++
                 toString rightsizedMemoryMB ++
                 "MB to save on compute costs without impacting performance."
               estimatedMonthlySavings := round2 savings
               confidence := Confidence.medium
               metadata := some [("functionName", JsonVal.str fn.functionName),
                                 ("currentMemoryMB", JsonVal.num fn.memoryMB),
                                 ("suggestedMemoryMB", JsonVal.num (rightsizedMemoryMB : ℚ)),
                                 ("avgDurationMs", JsonVal.num fn.avgDurationMs),
                                 ("avgInvocationsPerDay", JsonVal.num fn.avgInvocationsPerDay)] }
      else none
    else none
  else none

/-- Heuristic 5: `analyzeLambdaOptimization`. -/
def analyzeLambdaOptimization (functions : List LambdaFunction) : List RecommendationInput :=
  functions.filterMap lambdaStep

/-- Loop body of `analyzeELBIdle` for one load balancer. -/
def elbIdleStep (lb : LoadBalancerInfo) : Option RecommendationInput :=
  if lb.state ≠ "active" then none
  else
    let hourly := if lb.type = "network" then NLB_HOURLY else ALB_HOURLY
    let monthlyCost := hourly * HOURS_IN_MONTH
    if lb.totalTargetCount = 0 then
      some { type := "ELB_NO_TARGETS"
             resourceId := lb.loadBalancerName
             description := "Load balancer \"" ++ lb.loadBalancerName ++ "\" (" ++ lb.type ++
               ") has no registered targets. Consider deleting it to save on fixed hourly charges."
             estimatedMonthlySavings := round2 monthlyCost
             confidence := Confidence.high
             metadata := some [("loadBalancerName", JsonVal.str lb.loadBalancerName),
                               ("type", JsonVal.str lb.type),
                               ("createdAt", JsonVal.str (toString lb.createdAt))] }
    else if lb.requestCountPerDay = 0 then
      some { type := "ELB_NO_TRAFFIC"
             resourceId := lb.loadBalancerName
             description := "Load balancer \"" ++ lb.loadBalancerName ++ "\" (" ++ lb.type ++
               ") has " ++ toString lb.totalTargetCount ++
               " target(s) but received zero requests over the last 14 days. Consider removing it if the service is no longer in use."
             estimatedMonthlySavings := round2 monthlyCost
             confidence := Confidence.medium
             metadata := some [("loadBalancerName", JsonVal.str lb.loadBalancerName),
                               ("type", JsonVal.str lb.type),
                               ("totalTargetCount", JsonVal.num (lb.totalTargetCount : ℚ)),
                               ("activeTargetCount", JsonVal.num (lb.activeTargetCount : ℚ))] }
    else none

/-- Heuristic 6: `analyzeELBIdle`. -/
def analyzeELBIdle (loadBalancers : List LoadBalancerInfo) : List RecommendationInput :=
  loadBalancers.filterMap elbIdleStep

/-- Loop body of `analyzeElasticIPUnused` for one address. -/
def eipUnusedStep (eip : ElasticIPInfo) : Option RecommendationInput :=
  if jsTruthy eip.associationId then none
  else
    let savings := ELASTIC_IP_HOURLY_UNUSED * HOURS_IN_MONTH
    some { type := "EIP_UNASSOCIATED"
           resourceId := eip.allocationId
           description := "Elastic IP " ++ eip.publicIp ++ " (" ++ eip.allocationId ++
             ") is not associated with any instance. AWS charges for idle Elastic IPs. Consider releasing it if no longer needed."
           estimatedMonthlySavings := round2 savings
           confidence := Confidence.high
           metadata := some [("allocationId", JsonVal.str eip.allocationId),
                             ("publicIp", JsonVal.str eip.publicIp),
                             ("domain", JsonVal.str eip.domain)] }

/-- Heuristic 7: `analyzeElasticIPUnused`. -/
def analyzeElasticIPUnused (eips : List ElasticIPInfo) : List RecommendationInput :=
  eips.filterMap eipUnusedStep

/-- Loop body of `analyzeNatGatewayIdle` for one gateway. -/
def natIdleStep (nat : NatGatewayInfo) : Option RecommendationInput :=
  if nat.state ≠ "available" then none
  else
    let dailyGB := nat.bytesProcessedPerDay / BYTES_PER_GB
    if dailyGB < 1 then
      let fixedCost := NAT_GATEWAY_HOURLY * HOURS_IN_MONTH
      let dataTransferCost := dailyGB * 30 * NAT_GATEWAY_PER_GB
      let savings := fixedCost + dataTransferCost
      some { type := "NAT_GW_IDLE"
             resourceId := nat.natGatewayId
             description := "NAT Gateway \"" ++ nat.natGatewayId ++ "\" processes only " ++
               toString dailyGB ++
               " GB/day (less than the 1 GB/day threshold). The fixed cost is ~32.85 USD/month regardless of usage. Consider replacing with a NAT instance or VPC endpoints for specific services."
             estimatedMonthlySavings := round2 savings
             confidence := Confidence.medium
             metadata := some [("natGatewayId", JsonVal.str nat.natGatewayId),
                               ("vpcId", JsonVal.str nat.vpcId),
                               ("subnetId", JsonVal.str nat.subnetId),
                               ("dailyTrafficGB", JsonVal.num (round2 dailyGB))] }
    else none

/-- Heuristic 8: `analyzeNatGatewayIdle`. -/
def analyzeNatGatewayIdle (natGateways : List NatGatewayInfo) : List RecommendationInput :=
  natGateways.filterMap natIdleStep

-- ── Persistence model ──
-- Database tables are lists of rows; the Prisma `upsert` keyed by a unique
-- constraint, `updateMany` and `$transaction` calls of the source are modelled
-- as pure state transformers with exactly the contract the source relies on.

/-- A `Recommendation` row (prisma schema; unique (workspaceId, resourceId, type)). -/
structure RecommendationRow where
  workspaceId : String
  type : String
  resourceId : String
  description : String
  estimatedMonthlySavings : ℚ
  confidence : Confidence
  status : String
  metadata : Option (List (String × JsonVal))
  deriving DecidableEq, Repr

/-- The unique key (workspaceId, resourceId, type) of the recommendation upsert. -/
def recKeyMatches (ws resId ty : String) (row : RecommendationRow) : Bool :=
  row.workspaceId == ws && row.resourceId == resId && row.type == ty

/-- The update clause of the recommendation upsert
(src/jobs/scheduler.ts lines 73-79): it names only description,
estimatedMonthlySavings, confidence and metadata (a `?? undefined` metadata
leaves the stored field untouched), and in particular never mentions status. -/
def recUpdateClause (rec : RecommendationInput) (row : RecommendationRow) :
    RecommendationRow :=
  { row with
      description := rec.description
      estimatedMonthlySavings := rec.estimatedMonthlySavings
      confidence := rec.confidence
      metadata := match rec.metadata with | some m => some m | none => row.metadata }

/-- Source `prisma.recommendation.upsert` as issued by `processWorkspace`
(src/jobs/scheduler.ts lines 55-80), keyed by the unique
(workspaceId, resourceId, type): on create status is the literal `new`; on
update only `recUpdateClause` is applied. -/
def upsertRecommendation (ws : String) (rec : RecommendationInput)
    (db : List RecommendationRow) : List RecommendationRow :=
  if db.any (recKeyMatches ws rec.resourceId rec.type) then
    db.map (fun row =>
      if recKeyMatches ws rec.resourceId rec.type row then recUpdateClause rec row
      else row)
  else
    db ++ [{ workspaceId := ws
             type := rec.type
             resourceId := rec.resourceId
             description := rec.description
             estimatedMonthlySavings := rec.estimatedMonthlySavings
             confidence := rec.confidence
             status := "new"
             metadata := rec.metadata }]

/-- A `Resource` row (prisma schema; unique (workspaceId, resourceId)). -/
structure ResourceRow where
  workspaceId : String
  resourceId : String
  arn : Option String
  service : String
  type : Option String
  name : Option String
  tags : Option (List (String × String))
  metadata : Option (List (String × JsonVal))
  state : Option String
  estimatedMonthlyCost : Option ℚ
  lastSeenAt : ℤ
  deriving DecidableEq, Repr

/-- The `where` filter of the stale-resource sweep
(src/services/costsService.ts lines 1219-1228): same workspace and
`lastSeenAt < now - 60*60*1000`. -/
def isStale (ws : String) (now : ℤ) (r : ResourceRow) : Bool :=
  r.workspaceId == ws && decide (r.lastSeenAt < now - 60 * 60 * 1000)

/-- Source `prisma.resource.updateMany` of the stale-resource sweep: set
`state = not-found` on every matching row. -/
def staleSweep (ws : String) (now : ℤ) (db : List ResourceRow) : List ResourceRow :=
  db.map (fun r => if isStale ws now r then { r with state := some ("not-found") } else r)

-- ── Resource collector sweep (src/services/costsService.ts lines 1128-1172) ──

/-- A collector output record (`interface ResourceRecord` in costsService). -/
structure ResourceRecord where
  resourceId : String
  arn : Option String
  service : String
  type : Option String
  name : Option String
  tags : Option (List (String × String))
  state : Option String
  estimatedMonthlyCost : Option ℚ
  metadata : Option (List (String × JsonVal))
  deriving DecidableEq, Repr

/-- One named collector together with the outcome of awaiting it
(`Promise.allSettled` observes either a fulfilled record list or a rejection
message). -/
structure CollectorOutcome where
  name : String
  outcome : Except String (List ResourceRecord)
  deriving Repr

/-- Accumulator of the sweep: merged records, per-service counts, error list. -/
structure SweepAcc where
  allResources : List ResourceRecord
  byService : List (String × ℕ)
  errors : List String
  deriving DecidableEq, Repr

/-- Handling of one settled collector result (the inner `for` of the sweep):
fulfilled pushes the records and the count, rejected appends the
`"<Service>: <message>"` error string and a zero count. -/
def settleCollector (acc : SweepAcc) (c : CollectorOutcome) : SweepAcc :=
  match c.outcome with
  | Except.ok resources =>
    { acc with
        allResources := acc.allResources ++ resources
        byService := acc.byService ++ [(c.name, resources.length)] }
  | Except.error errMsg =>
    { acc with
        byService := acc.byService ++ [(c.name, 0)]
        errors := acc.errors ++ [c.name ++ ": " ++ errMsg] }

/-- Source `collectors.slice(i, i + 4)` batching: split the collector list into
consecutive chunks of four. -/
def chunks4 : List CollectorOutcome → List (List CollectorOutcome)
  | [] => []
  | c :: cs => ((c :: cs).take 4) :: chunks4 ((c :: cs).drop 4)
termination_by l => l.length
decreasing_by
  simp [List.length_drop]
  omega

/-- The batched sweep: process the chunks of four in dispatch order, settling
every collector of a batch before the next batch starts. -/
def collectorSweep (collectors : List CollectorOutcome) : SweepAcc :=
  (chunks4 collectors).foldl (fun acc batch => batch.foldl settleCollector acc)
    { allResources := [], byService := [], errors := [] }

-- ── Job runner and scheduler (src/jobs/scheduler.ts) ──

/-- JobRun status values. -/
inductive JobStatus where
  | running
  | completed
  | failed
  deriving DecidableEq, Repr

/-- The sequential recommendation-upsert loop of `processWorkspace`
(src/jobs/scheduler.ts lines 53-82). `fails` is the environment oracle saying
which upsert calls the store rejects; the loop body has no try/catch, so the
first rejection escapes with the count of upserts completed so far and the
remaining upserts are never attempted. -/
def recUpsertLoop (fails : RecommendationInput → Bool) :
    List RecommendationInput → ℕ → ℕ × Option String
  | [], upsertCount => (upsertCount, none)
  | rec :: recs, upsertCount =>
    if fails rec then (upsertCount, some ("upsert failed: " ++ rec.resourceId))
    else recUpsertLoop fails recs (upsertCount + 1)

/-- The outcome `processWorkspace` records on the JobRun after the
recommendation loop: the surrounding try/catch turns an escaped upsert
rejection into `status = failed` (src/jobs/scheduler.ts lines 90-118), and a
clean loop into `status = completed` with `recommendationsFound` = the number
of upserts performed. -/
def processRecommendations (fails : RecommendationInput → Bool)
    (recs : List RecommendationInput) : JobStatus × ℕ :=
  match recUpsertLoop fails recs 0 with
  | (n, none) => (JobStatus.completed, n)
  | (n, some _) => (JobStatus.failed, n)

/-- Source `processWorkspace` from the inventory-sync step on: the sync call sits in
its own try/catch (src/jobs/scheduler.ts lines 35-43), so its outcome — success
or failure — never influences the rest of the job, which is
`processRecommendations`. -/
def processWorkspaceModel (syncOutcome : Except String (ℕ × List String))
    (fails : RecommendationInput → Bool) (recs : List RecommendationInput) :
    JobStatus × ℕ :=
  match syncOutcome with
  | Except.ok _ => processRecommendations fails recs
  | Except.error _ => processRecommendations fails recs

/-- The scheduler state: the module-scoped `isRunning` flag plus the storage
the tick body works on. -/
structure SchedState (σ : Type) where
  isRunning : Bool
  store : σ
  deriving DecidableEq, Repr

/-- Source `runSchedulerTick` (src/jobs/scheduler.ts lines 124-153). The tick body —
workspace enumeration plus sequential processing — is the function `body`,
which returns the storage it left behind together with an optional escaped
exception. The guard skips when the flag is set; otherwise the body runs under
the flag and the `finally` clears the flag on both the normal and the throwing
exit path. -/
def runSchedulerTick {σ ε : Type} (body : σ → σ × Option ε) (s : SchedState σ) :
    SchedState σ :=
  if s.isRunning then s
  else
    let afterBody := body s.store
    { isRunning := false, store := afterBody.1 }

-- ── Analysis-path resource persistence (src/engine/finopsEngine.ts 144-182) ──

/-- The fields of one element of `resourcesToUpsert` built by `runFinOpsEngine`
(`Prisma.ResourceCreateInput` as the engine fills it: no arn, no metadata, cost
always present). -/
structure EngineResourceInput where
  resourceId : String
  service : String
  type : String
  name : Option String
  tags : Option (List (String × String))
  state : String
  estimatedMonthlyCost : ℚ
  deriving DecidableEq, Repr

/-- The single `prisma.resource.upsert` operation `upsertResources` builds for
one resource: keyed by (workspaceId, resourceId); create sets all named fields
with `lastSeenAt = now`; update overwrites service, type, name, tags, state,
estimatedMonthlyCost and `lastSeenAt = now`. -/
def applyEngineUpsert (ws : String) (now : ℤ) (resource : EngineResourceInput)
    (db : List ResourceRow) : List ResourceRow :=
  if db.any (fun row => row.workspaceId == ws && row.resourceId == resource.resourceId) then
    db.map (fun row =>
      if row.workspaceId == ws && row.resourceId == resource.resourceId then
        { row with
            service := resource.service
            type := some resource.type
            name := resource.name
            tags := resource.tags
            state := some resource.state
            estimatedMonthlyCost := some resource.estimatedMonthlyCost
            lastSeenAt := now }
      else row)
  else
    db ++ [{ workspaceId := ws
             resourceId := resource.resourceId
             arn := none
             service := resource.service
             type := some resource.type
             name := resource.name
             tags := resource.tags
             metadata := none
             state := some resource.state
             estimatedMonthlyCost := some resource.estimatedMonthlyCost
             lastSeenAt := now }]

/-- Sequential execution of the operation list inside `prisma.$transaction`:
the first rejected operation aborts the run with its error. -/
def runTransactionOps (ws : String) (now : ℤ) (fails : EngineResourceInput → Bool) :
    List EngineResourceInput → List ResourceRow → Except String (List ResourceRow)
  | [], db => Except.ok db
  | r :: rs, db =>
    if fails r then Except.error ("upsert failed: " ++ r.resourceId)
    else runTransactionOps ws now fails rs (applyEngineUpsert ws now r db)

/-- Source `upsertResources` (src/engine/finopsEngine.ts lines 144-182): all upserts of
the run are passed to one `prisma.$transaction`, whose contract is atomicity —
on any failure no write is applied and the error propagates to the caller. An
`Except.error` result therefore leaves the table at the input `db`. -/
def upsertResources (ws : String) (now : ℤ) (fails : EngineResourceInput → Bool)
    (resources : List EngineResourceInput) (db : List ResourceRow) :
    Except String (List ResourceRow) :=
  match runTransactionOps ws now fails resources db with
  | Except.ok db2 => Except.ok db2
  | Except.error e => Except.error e

/-- The table contents after a transactional call: an error means rollback to
the pre-transaction state. -/
def tableAfter (db : List ResourceRow) : Except String (List ResourceRow) → List ResourceRow
  | Except.ok db2 => db2
  | Except.error _ => db

-- ── Inventory-path per-resource upsert loop (costsService lines 1174-1215) ──

/-- The `prisma.resource.upsert` issued by `syncWorkspaceResources` for one
collector record: create uses `estimatedMonthlyCost ?? 0`; update uses
`estimatedMonthlyCost ?? undefined`, which leaves the stored cost untouched
when the record carries none. -/
def applySyncUpsert (ws : String) (now : ℤ) (resource : ResourceRecord)
    (db : List ResourceRow) : List ResourceRow :=
  if db.any (fun row => row.workspaceId == ws && row.resourceId == resource.resourceId) then
    db.map (fun row =>
      if row.workspaceId == ws && row.resourceId == resource.resourceId then
        { row with
            arn := resource.arn
            service := resource.service
            type := resource.type
            name := resource.name
            tags := resource.tags
            metadata := resource.metadata
            state := resource.state
            estimatedMonthlyCost :=
              match resource.estimatedMonthlyCost with
              | some c => some c
              | none => row.estimatedMonthlyCost
            lastSeenAt := now }
      else row)
  else
    db ++ [{ workspaceId := ws
             resourceId := resource.resourceId
             arn := resource.arn
             service := resource.service
             type := resource.type
             name := resource.name
             tags := resource.tags
             metadata := resource.metadata
             state := resource.state
             estimatedMonthlyCost := some ((resource.estimatedMonthlyCost).getD 0)
             lastSeenAt := now }]

/-- The inventory upsert loop: each upsert sits in its own try/catch, so a
rejected upsert is logged and skipped and the loop continues with the next
record. -/
def inventoryUpsertLoop (ws : String) (now : ℤ) (fails : ResourceRecord → Bool)
    (records : List ResourceRecord) (db : List ResourceRow) : List ResourceRow :=
  records.foldl (fun db r => if fails r then db else applySyncUpsert ws now r db) db

/-- The savings figure of a recommendation is well-formed: non-negative and a value
already rounded to two decimal places. -/
def SavingsWellFormed (r : RecommendationInput) : Prop :=
  0 ≤ r.estimatedMonthlySavings ∧
    round2 r.estimatedMonthlySavings = r.estimatedMonthlySavings

-- ── General lemmas about the embedded primitives ──

theorem jsRound_nonneg {q : ℚ} (h : 0 ≤ q) : 0 ≤ jsRound q := by
  unfold jsRound
  exact Int.le_floor.mpr (by push_cast; linarith)

theorem round2_nonneg {q : ℚ} (h : 0 ≤ q) : 0 ≤ round2 q := by
  unfold round2
  have h2 := jsRound_nonneg (q := q * 100) (by positivity)
  exact div_nonneg (by exact_mod_cast h2) (by norm_num)

theorem round2_idem (q : ℚ) : round2 (round2 q) = round2 q := by
  unfold round2 jsRound
  set n := ⌊q * 100 + 1 / 2⌋ with hn
  have h1 : (n : ℚ) / 100 * 100 + 1 / 2 = (n : ℚ) + 1 / 2 := by field_simp
  rw [h1, Int.floor_int_add]
  norm_num

theorem round2_wellformed {q : ℚ} (h : 0 ≤ q) :
    0 ≤ round2 q ∧ round2 (round2 q) = round2 q :=
  ⟨round2_nonneg h, round2_idem q⟩

theorem lookup_pair_mem {l : List (String × ℚ)} {k : String} {v : ℚ}
    (h : l.lookup k = some v) : (k, v) ∈ l := by
  induction l with
  | nil => simp [List.lookup] at h
  | cons p l ih =>
    obtain ⟨a, b⟩ := p
    by_cases hk : k = a
    · subst hk
      simp [List.lookup] at h
      subst h
      exact List.mem_cons_self _ _
    · have hk2 : (k == a) = false := by simpa using hk
      simp [List.lookup, hk2] at h
      exact List.mem_cons_of_mem _ (ih h)

theorem lookupD_nonneg {l : List (String × ℚ)} (hl : ∀ p ∈ l, 0 ≤ p.2)
    {k : String} {d : ℚ} (hd : 0 ≤ d) : 0 ≤ (l.lookup k).getD d := by
  cases h : l.lookup k with
  | none => simpa using hd
  | some v => simpa using hl _ (lookup_pair_mem h)

theorem ec2Prices_nonneg : ∀ p ∈ EC2_HOURLY_PRICES, 0 ≤ p.2 := by
  intro p hp
  simp [EC2_HOURLY_PRICES] at hp
  rcases hp with h | h | h | h | h | h | h | h | h | h | h | h | h <;>
    · subst h; norm_num

theorem ebsPrices_nonneg : ∀ p ∈ EBS_MONTHLY_PER_GIB, 0 ≤ p.2 := by
  intro p hp
  simp [EBS_MONTHLY_PER_GIB] at hp
  rcases hp with h | h | h | h | h | h <;>
    · subst h; norm_num

theorem rdsPrices_nonneg : ∀ p ∈ RDS_HOURLY_PRICES, 0 ≤ p.2 := by
  intro p hp
  simp [RDS_HOURLY_PRICES] at hp
  rcases hp with h | h | h | h | h | h | h | h <;>
    · subst h; norm_num

theorem mem_zip_map {α β : Type} (f : α → β) :
    ∀ (l : List α), ∀ p ∈ l.zip (l.map f), p.2 = f p.1
  | [], p, hp => by simp at hp
  | x :: xs, p, hp => by
    rw [List.map_cons, List.zip_cons_cons] at hp
    rcases List.mem_cons.mp hp with h | h
    · subst h; rfl
    · exact mem_zip_map f xs p h

-- ── Claim C1 ──

/-- Claim C1: for every existing recommendation row, the engine upsert keyed by
(workspaceId, resourceId, type) never modifies the status of the row — a status
previously set to acknowledged or dismissed stays unchanged — while
description, estimatedMonthlySavings, confidence and metadata are overwritten
with the values of the new run; on first insert the status is `new`. -/
theorem upsertRecommendation_preserves_user_status (ws : String)
    (rec : RecommendationInput) (db : List RecommendationRow) :
    (db.any (recKeyMatches ws rec.resourceId rec.type) = true →
      ∀ p ∈ db.zip (upsertRecommendation ws rec db),
        p.2.status = p.1.status ∧
        (recKeyMatches ws rec.resourceId rec.type p.1 = true →
          p.2.description = rec.description ∧
          p.2.estimatedMonthlySavings = rec.estimatedMonthlySavings ∧
          p.2.confidence = rec.confidence ∧
          ∀ m, rec.metadata = some m → p.2.metadata = some m) ∧
        (recKeyMatches ws rec.resourceId rec.type p.1 = false → p.2 = p.1)) ∧
    (db.any (recKeyMatches ws rec.resourceId rec.type) = false →
      ∃ row, upsertRecommendation ws rec db = db ++ [row] ∧
        row.status = "new" ∧ row.workspaceId = ws ∧
        row.resourceId = rec.resourceId ∧ row.type = rec.type ∧
        row.description = rec.description ∧
        row.estimatedMonthlySavings = rec.estimatedMonthlySavings ∧
        row.confidence = rec.confidence ∧ row.metadata = rec.metadata) := by
  constructor
  · intro hany p hp
    have hmap : upsertRecommendation ws rec db =
        db.map (fun row =>
          if recKeyMatches ws rec.resourceId rec.type row then recUpdateClause rec row
          else row) := by
      unfold upsertRecommendation
      rw [if_pos hany]
    rw [hmap] at hp
    have h2 := mem_zip_map _ db p hp
    by_cases hk : recKeyMatches ws rec.resourceId rec.type p.1 = true
    · rw [if_pos hk] at h2
      refine ⟨by rw [h2]; rfl,
        fun _ => ⟨by rw [h2]; rfl, by rw [h2]; rfl, by rw [h2]; rfl, ?_⟩,
        fun hk2 => by rw [hk] at hk2; cases hk2⟩
      intro m hm
      rw [h2]
      simp [recUpdateClause, hm]
    · rw [if_neg hk] at h2
      exact ⟨by rw [h2], fun hkt => absurd hkt hk, fun _ => h2⟩
  · intro hany
    have heq : upsertRecommendation ws rec db = db ++
        [{ workspaceId := ws
           type := rec.type
           resourceId := rec.resourceId
           description := rec.description
           estimatedMonthlySavings := rec.estimatedMonthlySavings
           confidence := rec.confidence
           status := "new"
           metadata := rec.metadata }] := by
      unfold upsertRecommendation
      rw [if_neg (by rw [hany]; exact Bool.false_ne_true)]
    exact ⟨_, heq, rfl, rfl, rfl, rfl, rfl, rfl, rfl, rfl⟩

def c1rec : RecommendationInput :=
  { type := "EC2_DOWN_SIZE"
    resourceId := "i-1"
    description := "updated description"
    estimatedMonthlySavings := 2
    confidence := Confidence.high
    metadata := some [("k", JsonVal.num 1)] }

def c1row : RecommendationRow :=
  { workspaceId := "w1"
    type := "EC2_DOWN_SIZE"
    resourceId := "i-1"
    description := "old description"
    estimatedMonthlySavings := 1
    confidence := Confidence.medium
    status := "dismissed"
    metadata := none }

def c1rowAfter : RecommendationRow :=
  { workspaceId := "w1"
    type := "EC2_DOWN_SIZE"
    resourceId := "i-1"
    description := "updated description"
    estimatedMonthlySavings := 2
    confidence := Confidence.high
    status := "dismissed"
    metadata := some [("k", JsonVal.num 1)] }

/-- Witness for C1: re-running the upsert against a dismissed row refreshes the
descriptive fields but keeps status `dismissed`. -/
theorem upsertRecommendation_preserves_user_status_witness :
    upsertRecommendation ("w1") c1rec [c1row] = [c1rowAfter] ∧
    c1rowAfter.status = c1row.status := by
  refine ⟨by decide, ?_⟩
  exact ((upsertRecommendation_preserves_user_status ("w1") c1rec [c1row]).1
    (by decide) (c1row, c1rowAfter) (by decide)).1

-- ── Claim C5 ──

/-- Claim C5: the stale-resource sweep sets state = not-found on exactly the
rows of the workspace whose lastSeenAt is older than now minus one hour; only
the state field changes, no row is deleted, and rows refreshed to
lastSeenAt = now in the current collection are not marked. -/
theorem staleSweep_soft_delete (ws : String) (now : ℤ) (db : List ResourceRow) :
    (staleSweep ws now db).length = db.length ∧
    ∀ p ∈ db.zip (staleSweep ws now db),
      (p.1.workspaceId = ws ∧ p.1.lastSeenAt < now - 60 * 60 * 1000 →
        p.2 = { p.1 with state := some ("not-found") }) ∧
      (¬(p.1.workspaceId = ws ∧ p.1.lastSeenAt < now - 60 * 60 * 1000) → p.2 = p.1) ∧
      (p.1.lastSeenAt = now → p.2 = p.1) := by
  constructor
  · simp [staleSweep]
  · intro p hp
    have h2 := mem_zip_map _ db p hp
    by_cases hs : isStale ws now p.1 = true
    · rw [if_pos hs] at h2
      have hprop : p.1.workspaceId = ws ∧ p.1.lastSeenAt < now - 60 * 60 * 1000 := by
        simpa [isStale] using hs
      refine ⟨fun _ => h2, fun hc => absurd hprop hc, fun hnow => ?_⟩
      exfalso
      have hlt := hprop.2
      rw [hnow] at hlt
      omega
    · rw [if_neg hs] at h2
      have hprop : ¬(p.1.workspaceId = ws ∧ p.1.lastSeenAt < now - 60 * 60 * 1000) := by
        simpa [isStale] using hs
      exact ⟨fun hc => absurd hc hprop, fun _ => h2, fun _ => h2⟩

def c5row : ResourceRow :=
  { workspaceId := "w1"
    resourceId := "vol-1"
    arn := none
    service := "EBS"
    type := some ("gp2")
    name := none
    tags := none
    metadata := none
    state := some ("available")
    estimatedMonthlyCost := some 50
    lastSeenAt := 0 }

def c5rowAfter : ResourceRow := { c5row with state := some ("not-found") }

/-- Witness for C5: a row last seen two hours before the sweep is soft-deleted
and only its state changes. -/
theorem staleSweep_soft_delete_witness :
    staleSweep ("w1") 7200000 [c5row] = [c5rowAfter] ∧
    c5rowAfter = { c5row with state := some ("not-found") } := by
  refine ⟨by decide, ?_⟩
  exact ((staleSweep_soft_delete ("w1") 7200000 [c5row]).2 (c5row, c5rowAfter)
    (by decide)).1 (by decide)

-- ── Claim C6 ──

/-- Claim C6: of any two overlapping tick invocations exactly one proceeds —
an invocation entered while the isRunning flag is set returns immediately
without touching storage, whatever its body would do — and the proceeding tick
clears the flag on every exit path, including when workspace enumeration or
processing throws. -/
theorem schedulerTick_singleton_guard {σ ε : Type} (body body2 : σ → σ × Option ε)
    (s : SchedState σ) :
    (s.isRunning = true → runSchedulerTick body s = s) ∧
    (s.isRunning = false →
      (∀ mid : σ, runSchedulerTick body2 (SchedState.mk true mid) = SchedState.mk true mid) ∧
      (runSchedulerTick body s).isRunning = false ∧
      (runSchedulerTick body s).store = (body s.store).1 ∧
      (∀ st (e : ε), body s.store = (st, some e) →
        runSchedulerTick body s = SchedState.mk false st)) := by
  constructor
  · intro h
    unfold runSchedulerTick
    rw [if_pos h]
  · intro h
    have hn : ¬(s.isRunning = true) := by rw [h]; exact Bool.false_ne_true
    refine ⟨fun mid => by unfold runSchedulerTick; rw [if_pos rfl], ?_, ?_, ?_⟩
    · unfold runSchedulerTick
      rw [if_neg hn]
    · unfold runSchedulerTick
      rw [if_neg hn]
    · intro st e he
      unfold runSchedulerTick
      rw [if_neg hn]
      simp only [he]

def c6body : ℕ → ℕ × Option String := fun n => (n + 1, none)

/-- Witness for C6: with the flag set the tick is a no-op; starting from a
clear flag the tick ends with the flag clear. -/
theorem schedulerTick_singleton_guard_witness :
    runSchedulerTick c6body (SchedState.mk true 5) = SchedState.mk true 5 ∧
    (runSchedulerTick c6body (SchedState.mk false 5)).isRunning = false := by
  constructor
  · exact ((schedulerTick_singleton_guard c6body c6body (SchedState.mk false 5)).2 rfl).1 5
  · exact ((schedulerTick_singleton_guard c6body c6body (SchedState.mk false 5)).2 rfl).2.1

-- ── Claim C4 ──

def c4ec2 : EC2Instance :=
  { instanceId := "i-unknown"
    instanceType := "x9.unknownsize"
    state := "running"
    launchTime := 0
    tags := []
    platform := "linux" }

def c4rds : RDSInstance :=
  { dbInstanceId := "db-unknown"
    dbInstanceClass := "db.x9.unknownsize"
    engine := "postgres"
    status := "available"
    allocatedStorage := 100
    averageCpuPercent := 50
    averageConnections := 20
    multiAZ := false }

/-- Counterexample to claim C4 as stated: a running EC2 instance whose
instanceType is outside the hourly price table gets estimated monthly cost 0,
not 0.192 x 730, and an available RDS instance with an unknown class gets 0,
not 0.342 x 730. -/
theorem cost_model_unknown_type_fallback_cex :
    getEc2InstanceCost c4ec2 = 0 ∧ ¬ getEc2InstanceCost c4ec2 = 0.192 * 730 ∧
    getRdsInstanceCost c4rds = 0 ∧ ¬ getRdsInstanceCost c4rds = 0.342 * 730 := by
  have h1 : getEc2InstanceCost c4ec2 = 0 := by
    simp [getEc2InstanceCost, c4ec2, EC2_HOURLY_PRICES, List.lookup]
  have h2 : getRdsInstanceCost c4rds = 0 := by
    simp [getRdsInstanceCost, c4rds, RDS_HOURLY_PRICES, List.lookup]
  refine ⟨h1, ?_, h2, ?_⟩
  · rw [h1]; norm_num
  · rw [h2]; norm_num

/-- Claim C4 amended: the cost model returns 0 — not the analyzer fallback
prices 0.192 and 0.342 — for a running EC2 instance, resp. an available RDS
instance, whose type is not in the corresponding hourly price table. -/
theorem cost_model_unknown_type_zero :
    (∀ inst : EC2Instance, inst.state = "running" →
      EC2_HOURLY_PRICES.lookup inst.instanceType = none → getEc2InstanceCost inst = 0) ∧
    (∀ inst : RDSInstance, inst.status = "available" →
      RDS_HOURLY_PRICES.lookup inst.dbInstanceClass = none → getRdsInstanceCost inst = 0) := by
  constructor
  · intro inst hstate hlk
    unfold getEc2InstanceCost
    rw [if_neg (by simp [hstate]), hlk]
    simp
  · intro inst hstatus hlk
    unfold getRdsInstanceCost
    rw [if_neg (by simp [hstatus]), hlk]
    simp

/-- Witness for the amended C4: the concrete unknown-type instances evaluate
to cost 0. -/
theorem cost_model_unknown_type_zero_witness :
    getEc2InstanceCost c4ec2 = 0 ∧ getRdsInstanceCost c4rds = 0 :=
  ⟨cost_model_unknown_type_zero.1 c4ec2 rfl
    (by simp [c4ec2, EC2_HOURLY_PRICES, List.lookup]),
   cost_model_unknown_type_zero.2 c4rds rfl
    (by simp [c4rds, RDS_HOURLY_PRICES, List.lookup])⟩

-- ── Claim C2 ──

def c2FailingRec : RecommendationInput :=
  { type := "EC2_DOWN_SIZE"
    resourceId := "bad"
    description := "d1"
    estimatedMonthlySavings := 1
    confidence := Confidence.medium
    metadata := none }

def c2OkRec : RecommendationInput :=
  { type := "EBS_ORPHAN"
    resourceId := "good"
    description := "d2"
    estimatedMonthlySavings := 2
    confidence := Confidence.high
    metadata := none }

def c2Fails (r : RecommendationInput) : Bool := r.resourceId == "bad"

/-- Counterexample to claim C2 as stated: in the analysis path the
recommendation-upsert loop has no per-upsert try/catch, so a single failing
upsert ends the JobRun with status failed with the remaining upserts never
attempted (the loop result is independent of the rest of the list). -/
theorem analysis_upsert_failure_fails_job_cex :
    processRecommendations c2Fails [c2FailingRec, c2OkRec] = (JobStatus.failed, 0) ∧
    recUpsertLoop c2Fails [c2FailingRec, c2OkRec] 0 =
      recUpsertLoop c2Fails [c2FailingRec] 0 := by
  constructor <;> decide

theorem recUpsertLoop_all_ok (fails : RecommendationInput → Bool) :
    ∀ (recs : List RecommendationInput) (n : ℕ),
      (∀ r ∈ recs, fails r = false) →
      recUpsertLoop fails recs n = (n + recs.length, none)
  | [], n, _ => by simp [recUpsertLoop]
  | r :: rs, n, h => by
    have hr : fails r = false := h r (List.mem_cons_self _ _)
    have ih := recUpsertLoop_all_ok fails rs (n + 1)
      (fun x hx => h x (List.mem_cons_of_mem _ hx))
    simp only [recUpsertLoop, hr, Bool.false_eq_true, if_false, ih, List.length_cons]
    have hadd : n + 1 + rs.length = n + (rs.length + 1) := by omega
    rw [hadd]

theorem recUpsertLoop_first_failure (fails : RecommendationInput → Bool) :
    ∀ (pre : List RecommendationInput) (bad : RecommendationInput)
      (post : List RecommendationInput) (n : ℕ),
      (∀ r ∈ pre, fails r = false) → fails bad = true →
      recUpsertLoop fails (pre ++ bad :: post) n =
        (n + pre.length, some ("upsert failed: " ++ bad.resourceId))
  | [], bad, post, n, _, hbad => by
    simp [recUpsertLoop, hbad]
  | r :: pre, bad, post, n, h, hbad => by
    have hr : fails r = false := h r (List.mem_cons_self _ _)
    have ih := recUpsertLoop_first_failure fails pre bad post (n + 1)
      (fun x hx => h x (List.mem_cons_of_mem _ hx)) hbad
    have hadd : n + 1 + pre.length = n + (pre.length + 1) := by omega
    show recUpsertLoop fails (r :: (pre ++ bad :: post)) n = _
    simp only [recUpsertLoop, hr, Bool.false_eq_true, if_false, List.length_cons]
    exact hadd ▸ ih

/-- Claim C2 amended: per-upsert failure containment holds only in the
inventory sync path, where each resource upsert has its own try/catch, so
failing upserts are skipped and every remaining record is still applied (and
the sync outcome as a whole never influences the rest of the job). In the
analysis path the recommendation-upsert loop is unprotected: a clean run
upserts everything and completes, but the first failing upsert ends the JobRun
with status failed, with only the preceding upserts performed. -/
theorem per_upsert_failure_containment :
    (∀ (ws : String) (now : ℤ) (fails : ResourceRecord → Bool)
       (records : List ResourceRecord) (db : List ResourceRow),
       inventoryUpsertLoop ws now fails records db =
         (records.filter (fun r => !(fails r))).foldl
           (fun db r => applySyncUpsert ws now r db) db) ∧
    (∀ (fails : RecommendationInput → Bool) (recs : List RecommendationInput),
       (∀ r ∈ recs, fails r = false) →
       processRecommendations fails recs = (JobStatus.completed, recs.length)) ∧
    (∀ (fails : RecommendationInput → Bool) (pre : List RecommendationInput)
       (bad : RecommendationInput) (post : List RecommendationInput),
       (∀ r ∈ pre, fails r = false) → fails bad = true →
       processRecommendations fails (pre ++ bad :: post) = (JobStatus.failed, pre.length)) ∧
    (∀ (s1 s2 : Except String (ℕ × List String)) (fails : RecommendationInput → Bool)
       (recs : List RecommendationInput),
       processWorkspaceModel s1 fails recs = processWorkspaceModel s2 fails recs) := by
  refine ⟨?_, ?_, ?_, ?_⟩
  · intro ws now fails records db
    induction records generalizing db with
    | nil => rfl
    | cons r rs ih =>
      cases hfr : fails r with
      | true =>
        rw [show inventoryUpsertLoop ws now fails (r :: rs) db =
            inventoryUpsertLoop ws now fails rs db from by
          simp [inventoryUpsertLoop, hfr]]
        rw [ih, List.filter_cons]
        simp [hfr]
      | false =>
        rw [show inventoryUpsertLoop ws now fails (r :: rs) db =
            inventoryUpsertLoop ws now fails rs (applySyncUpsert ws now r db) from by
          simp [inventoryUpsertLoop, hfr]]
        rw [ih, List.filter_cons]
        simp [hfr]
  · intro fails recs h
    unfold processRecommendations
    rw [recUpsertLoop_all_ok fails recs 0 h]
    simp
  · intro fails pre bad post h hbad
    unfold processRecommendations
    rw [recUpsertLoop_first_failure fails pre bad post 0 h hbad]
    simp
  · intro s1 s2 fails recs
    cases s1 <;> cases s2 <;> rfl

/-- Witness for the amended C2: a clean run completes with both upserts
counted; a run whose second upsert fails ends failed with one upsert done. -/
theorem per_upsert_failure_containment_witness :
    processRecommendations c2Fails [c2OkRec] = (JobStatus.completed, 1) ∧
    processRecommendations c2Fails ([c2OkRec] ++ c2FailingRec :: [c2OkRec]) =
      (JobStatus.failed, 1) := by
  constructor
  · exact per_upsert_failure_containment.2.1 c2Fails [c2OkRec] (by decide)
  · exact per_upsert_failure_containment.2.2.1 c2Fails [c2OkRec] c2FailingRec [c2OkRec]
      (by decide) (by decide)

-- ── Claim C10 ──

theorem runTransactionOps_error (ws : String) (now : ℤ)
    (fails : EngineResourceInput → Bool) :
    ∀ (resources : List EngineResourceInput) (db : List ResourceRow),
      (∃ r ∈ resources, fails r = true) →
      ∃ e, runTransactionOps ws now fails resources db = Except.error e
  | [], _, h => by simp at h
  | r :: rs, db, h => by
    cases hfr : fails r with
    | true => exact ⟨"upsert failed: " ++ r.resourceId, by simp [runTransactionOps, hfr]⟩
    | false =>
      obtain ⟨x, hx, hfx⟩ := h
      rcases List.mem_cons.mp hx with rfl | hx2
      · rw [hfr] at hfx; cases hfx
      · have ih := runTransactionOps_error ws now fails rs
          (applyEngineUpsert ws now r db) ⟨x, hx2, hfx⟩
        simpa [runTransactionOps, hfr] using ih

theorem runTransactionOps_ok (ws : String) (now : ℤ)
    (fails : EngineResourceInput → Bool) :
    ∀ (resources : List EngineResourceInput) (db : List ResourceRow),
      (∀ r ∈ resources, fails r = false) →
      runTransactionOps ws now fails resources db =
        Except.ok (resources.foldl (fun acc r => applyEngineUpsert ws now r acc) db)
  | [], _, _ => rfl
  | r :: rs, db, h => by
    have hr : fails r = false := h r (List.mem_cons_self _ _)
    simp only [runTransactionOps, hr, Bool.false_eq_true, if_false, List.foldl_cons]
    exact runTransactionOps_ok ws now fails rs _
      (fun x hx => h x (List.mem_cons_of_mem _ hx))

/-- Claim C10: in the analysis path all resource upserts of a run execute
inside a single transaction, so the operation is atomic — if any single
resource upsert in the batch fails, the error propagates to the caller and no
analysis-path resource write is applied (the Resource table after the call is
the input table); a clean run applies every upsert in order. -/
theorem upsertResources_transactional_atomicity (ws : String) (now : ℤ)
    (fails : EngineResourceInput → Bool) (resources : List EngineResourceInput)
    (db : List ResourceRow) :
    ((∃ r ∈ resources, fails r = true) →
      ∃ e, upsertResources ws now fails resources db = Except.error e ∧
        tableAfter db (upsertResources ws now fails resources db) = db) ∧
    ((∀ r ∈ resources, fails r = false) →
      upsertResources ws now fails resources db =
        Except.ok (resources.foldl (fun acc r => applyEngineUpsert ws now r acc) db)) := by
  constructor
  · intro h
    obtain ⟨e, he⟩ := runTransactionOps_error ws now fails resources db h
    refine ⟨e, ?_, ?_⟩
    · unfold upsertResources
      rw [he]
    · unfold upsertResources
      rw [he]
      rfl
  · intro h
    unfold upsertResources
    rw [runTransactionOps_ok ws now fails resources db h]

def c10bad : EngineResourceInput :=
  { resourceId := "i-bad"
    service := "EC2"
    type := "t3.micro"
    name := none
    tags := none
    state := "running"
    estimatedMonthlyCost := 1 }

def c10fails (r : EngineResourceInput) : Bool := r.resourceId == "i-bad"

/-- Witness for C10: with one rejected upsert the transaction errors and the
table is unchanged. -/
theorem upsertResources_transactional_atomicity_witness :
    ∃ e, upsertResources ("w1") 0 c10fails [c10bad] [] = Except.error e ∧
      tableAfter [] (upsertResources ("w1") 0 c10fails [c10bad] []) = [] :=
  (upsertResources_transactional_atomicity ("w1") 0 c10fails [c10bad] []).1
    ⟨c10bad, by simp, by decide⟩

-- ── Claim C7 ──

/-- The records a settled collector contributes to the merged output. -/
def collectorRecords (c : CollectorOutcome) : List ResourceRecord :=
  match c.outcome with
  | Except.ok rs => rs
  | Except.error _ => []

/-- The per-service count entry a settled collector contributes. -/
def collectorCount (c : CollectorOutcome) : String × ℕ :=
  match c.outcome with
  | Except.ok rs => (c.name, rs.length)
  | Except.error _ => (c.name, 0)

/-- The error string a failed collector contributes, if any. -/
def collectorError (c : CollectorOutcome) : Option String :=
  match c.outcome with
  | Except.ok _ => none
  | Except.error m => some (c.name ++ ": " ++ m)

theorem settle_foldl_char : ∀ (l : List CollectorOutcome) (acc : SweepAcc),
    l.foldl settleCollector acc =
      { allResources := acc.allResources ++ l.flatMap collectorRecords
        byService := acc.byService ++ l.map collectorCount
        errors := acc.errors ++ l.filterMap collectorError }
  | [], acc => by simp
  | c :: l, acc => by
    rw [List.foldl_cons, settle_foldl_char l _]
    cases hc : c.outcome with
    | ok rs =>
      simp [settleCollector, hc, collectorRecords, collectorCount, collectorError,
        List.append_assoc]
    | error m =>
      simp [settleCollector, hc, collectorRecords, collectorCount, collectorError,
        List.append_assoc]

theorem foldl_chunks4 : ∀ (l : List CollectorOutcome) (acc : SweepAcc),
    (chunks4 l).foldl (fun acc batch => batch.foldl settleCollector acc) acc =
      l.foldl settleCollector acc
  | [], _ => by rw [chunks4]; rfl
  | c :: cs, acc => by
    rw [chunks4, List.foldl_cons, foldl_chunks4 ((c :: cs).drop 4) _,
      ← List.foldl_append, List.take_append_drop]
termination_by l => l.length
decreasing_by
  simp [List.length_drop]
  omega

/-- Claim C7: the collector sweep — dispatched in batches of four — always
completes regardless of how many collectors fail: every failed collector
contributes exactly one error string of the form `<Service>: <message>` to the
error list, every successful collector contributes its records to the merged
output in dispatch order, and no collector failure aborts the sweep. -/
theorem collectorSweep_characterization (collectors : List CollectorOutcome) :
    collectorSweep collectors =
      { allResources := collectors.flatMap collectorRecords
        byService := collectors.map collectorCount
        errors := collectors.filterMap collectorError } := by
  unfold collectorSweep
  rw [foldl_chunks4, settle_foldl_char]
  simp

-- ── Claim C3 ──

theorem metricsFold_const {id : String} :
    ∀ (l : List CloudWatchMetric) (acc : Option CloudWatchMetric),
      (∀ m ∈ l, m.instanceId ≠ id) →
      l.foldl (fun acc m => if m.instanceId = id then some m else acc) acc = acc
  | [], _, _ => rfl
  | x :: xs, acc, h => by
    rw [List.foldl_cons, if_neg (h x (List.mem_cons_self _ _))]
    exact metricsFold_const xs acc (fun m hm => h m (List.mem_cons_of_mem _ hm))

theorem metricsFold_some {id : String} :
    ∀ (l : List CloudWatchMetric) (acc : Option CloudWatchMetric)
      (m : CloudWatchMetric),
      l.foldl (fun acc m => if m.instanceId = id then some m else acc) acc = some m →
      (m ∈ l ∧ m.instanceId = id) ∨ acc = some m
  | [], _, _, h => Or.inr h
  | x :: xs, acc, m, h => by
    rw [List.foldl_cons] at h
    rcases metricsFold_some xs _ m h with ⟨hm, hid⟩ | hacc
    · exact Or.inl ⟨List.mem_cons_of_mem _ hm, hid⟩
    · by_cases hx : x.instanceId = id
      · rw [if_pos hx] at hacc
        obtain rfl : x = m := Option.some.inj hacc
        exact Or.inl ⟨List.mem_cons_self _ _, hx⟩
      · rw [if_neg hx] at hacc
        exact Or.inr hacc

theorem metricsMapGet_some {metrics : List CloudWatchMetric} {id : String}
    {m : CloudWatchMetric} (h : metricsMapGet metrics id = some m) :
    m ∈ metrics ∧ m.instanceId = id := by
  rcases metricsFold_some metrics none m h with hor | hacc
  · exact hor
  · cases hacc

theorem metricsMapGet_of_mem :
    ∀ {metrics : List CloudWatchMetric} {id : String} {m : CloudWatchMetric},
      (metrics.map (fun m => m.instanceId)).Nodup → m ∈ metrics →
      m.instanceId = id → metricsMapGet metrics id = some m := by
  intro metrics
  induction metrics with
  | nil =>
    intro id m _ hm _
    simp at hm
  | cons x xs ih =>
    intro id m hnd hm hid
    rw [List.map_cons, List.nodup_cons] at hnd
    obtain ⟨hnotin, hnd2⟩ := hnd
    rcases List.mem_cons.mp hm with rfl | hm2
    · unfold metricsMapGet
      rw [List.foldl_cons, if_pos hid]
      apply metricsFold_const
      intro m2 hm2 hc
      exact hnotin (by rw [hid, ← hc]; exact List.mem_map_of_mem _ hm2)
    · have hxid : x.instanceId ≠ id := by
        intro hc
        exact hnotin (by rw [hc, ← hid]; exact List.mem_map_of_mem _ hm2)
      unfold metricsMapGet
      rw [List.foldl_cons, if_neg hxid]
      exact ih hnd2 hm2 hid

theorem analyzeEC2Downsizing_singleton (i : EC2Instance)
    (metrics : List CloudWatchMetric) :
    analyzeEC2Downsizing [i] metrics = (ec2DownsizeStep metrics i).toList := by
  cases h : ec2DownsizeStep metrics i <;>
    simp [analyzeEC2Downsizing, List.filterMap_cons, h]

/-- Claim C3: analyzeEC2Downsizing emits an EC2_DOWN_SIZE recommendation for an
instance iff its state is running, a metric for its instanceId exists with
periodDays >= 14, and averageCpuPercent < 10; the emitted savings equal the
hourly price x 730 x 0.5 x 0.6 rounded to two decimals (with the 0.192
fallback hourly price for types outside the table) and confidence is high
exactly when averageCpuPercent < 5, otherwise medium; a list of instances is
processed independently in input order. -/
theorem analyzeEC2Downsizing_characterization (i : EC2Instance)
    (metrics : List CloudWatchMetric)
    (hnd : (metrics.map (fun m => m.instanceId)).Nodup) :
    (analyzeEC2Downsizing [i] metrics ≠ [] ↔
      i.state = "running" ∧ ∃ m ∈ metrics, m.instanceId = i.instanceId ∧
        14 ≤ m.periodDays ∧ m.averageCpuPercent < 10) ∧
    (∀ m ∈ metrics, m.instanceId = i.instanceId → i.state = "running" →
      14 ≤ m.periodDays → m.averageCpuPercent < 10 →
      ∃ r, analyzeEC2Downsizing [i] metrics = [r] ∧
        r.type = "EC2_DOWN_SIZE" ∧ r.resourceId = i.instanceId ∧
        r.estimatedMonthlySavings =
          round2 (((EC2_HOURLY_PRICES.lookup i.instanceType).getD 0.192) *
            730 * 0.5 * 0.6) ∧
        r.confidence =
          (if m.averageCpuPercent < 5 then Confidence.high else Confidence.medium)) ∧
    (∀ instances : List EC2Instance, analyzeEC2Downsizing instances metrics =
      instances.flatMap (fun j => analyzeEC2Downsizing [j] metrics)) := by
  have hstep_of : ∀ m ∈ metrics, m.instanceId = i.instanceId → i.state = "running" →
      14 ≤ m.periodDays → m.averageCpuPercent < 10 →
      ec2DownsizeStep metrics i = some (ec2DownsizeRec i m) := by
    intro m hmem hid hstate hpd hcpu
    have hget := metricsMapGet_of_mem hnd hmem hid
    unfold ec2DownsizeStep
    rw [if_neg (by simp [hstate])]
    simp only [hget]
    rw [if_neg (not_lt.mpr hpd), if_pos hcpu]
  refine ⟨⟨?_, ?_⟩, ?_, ?_⟩
  · intro hne
    rw [analyzeEC2Downsizing_singleton] at hne
    cases hstep : ec2DownsizeStep metrics i with
    | none => rw [hstep] at hne; simp at hne
    | some r =>
      unfold ec2DownsizeStep at hstep
      by_cases hstate : i.state = "running"
      · rw [if_neg (by simp [hstate])] at hstep
        cases hget : metricsMapGet metrics i.instanceId with
        | none =>
          simp only [hget] at hstep
          cases hstep
        | some metric =>
          simp only [hget] at hstep
          by_cases hpd : metric.periodDays < 14
          · rw [if_pos hpd] at hstep; cases hstep
          · rw [if_neg hpd] at hstep
            by_cases hcpu : metric.averageCpuPercent < 10
            · obtain ⟨hmem, hid⟩ := metricsMapGet_some hget
              exact ⟨hstate, metric, hmem, hid, not_lt.mp hpd, hcpu⟩
            · rw [if_neg hcpu] at hstep; cases hstep
      · rw [if_pos (by simp [hstate])] at hstep; cases hstep
  · rintro ⟨hstate, m, hmem, hid, hpd, hcpu⟩
    rw [analyzeEC2Downsizing_singleton, hstep_of m hmem hid hstate hpd hcpu]
    simp
  · intro m hmem hid hstate hpd hcpu
    have hstep := hstep_of m hmem hid hstate hpd hcpu
    have heq : analyzeEC2Downsizing [i] metrics = [ec2DownsizeRec i m] := by
      rw [analyzeEC2Downsizing_singleton, hstep]
      rfl
    exact ⟨ec2DownsizeRec i m, heq, rfl, rfl, rfl, rfl⟩
  · intro instances
    induction instances with
    | nil => rfl
    | cons j js ih =>
      rw [List.flatMap_cons, ← ih, analyzeEC2Downsizing_singleton]
      cases h : ec2DownsizeStep metrics j <;>
        simp [analyzeEC2Downsizing, List.filterMap_cons, h]

def c3inst : EC2Instance :=
  { instanceId := "i-1"
    instanceType := "t3.medium"
    state := "running"
    launchTime := 0
    tags := []
    platform := "linux" }

def c3metric : CloudWatchMetric :=
  { instanceId := "i-1"
    averageCpuPercent := 9.999
    maxCpuPercent := 50
    periodDays := 14 }

/-- Witness for C3: periodDays = 14 with avgCpu = 9.999 emits a
medium-confidence EC2_DOWN_SIZE recommendation with the stated savings. -/
theorem analyzeEC2Downsizing_characterization_witness :
    ∃ r, analyzeEC2Downsizing [c3inst] [c3metric] = [r] ∧
      r.type = "EC2_DOWN_SIZE" ∧ r.resourceId = c3inst.instanceId ∧
      r.estimatedMonthlySavings =
        round2 (((EC2_HOURLY_PRICES.lookup c3inst.instanceType).getD 0.192) *
          730 * 0.5 * 0.6) ∧
      r.confidence =
        (if c3metric.averageCpuPercent < 5 then Confidence.high
         else Confidence.medium) :=
  (analyzeEC2Downsizing_characterization c3inst [c3metric] (by simp)).2.1 c3metric
    (List.mem_singleton.mpr rfl) rfl rfl (by norm_num [c3metric])
    (by norm_num [c3metric])

-- ── Claim C8 ──

theorem headI_mem {α : Type} [Inhabited α] {l : List α} (h : l ≠ []) :
    l.headI ∈ l := by
  cases l with
  | nil => cases h rfl
  | cons a l => exact List.mem_cons_self _ _

theorem filterMap_savings {α : Type} (f : α → Option RecommendationInput)
    (l : List α)
    (h : ∀ x ∈ l, ∀ r, f x = some r → SavingsWellFormed r) :
    ∀ r ∈ l.filterMap f, SavingsWellFormed r := by
  intro r hr
  obtain ⟨x, hx, hfx⟩ := List.mem_filterMap.mp hr
  exact h x hx r hfx

theorem ec2Step_wellformed (metrics : List CloudWatchMetric) (j : EC2Instance) :
    ∀ r, ec2DownsizeStep metrics j = some r → SavingsWellFormed r := by
  intro r h
  unfold ec2DownsizeStep at h
  split at h
  · cases h
  · split at h
    · cases h
    · split at h
      · cases h
      · split at h
        · obtain rfl := Option.some.inj h
          refine ⟨round2_nonneg ?_, round2_idem _⟩
          have hp : 0 ≤ (EC2_HOURLY_PRICES.lookup j.instanceType).getD 0.192 :=
            lookupD_nonneg ec2Prices_nonneg (by norm_num)
          have h730 : (0:ℚ) ≤ HOURS_IN_MONTH := by norm_num [HOURS_IN_MONTH]
          have hc : (0:ℚ) ≤ CONSERVATIVE_FACTOR := by norm_num [CONSERVATIVE_FACTOR]
          exact mul_nonneg (mul_nonneg (mul_nonneg hp h730) (by norm_num)) hc
        · cases h

theorem ebsStep_wellformed (now : ℤ) (v : EBSVolume) (hv : 0 ≤ v.size) :
    ∀ r, ebsOrphanStep now v = some r → SavingsWellFormed r := by
  intro r h
  unfold ebsOrphanStep at h
  simp only [] at h
  repeat' split at h
  all_goals first
    | (obtain rfl := Option.some.inj h
       exact ⟨round2_nonneg
         (mul_nonneg hv (lookupD_nonneg ebsPrices_nonneg (by norm_num))),
         round2_idem _⟩)
    | cases h

theorem s3Step_wellformed (b : S3BucketInfo) (hb : 0 ≤ b.sizeBytes) :
    ∀ r, s3LifecycleStep b = some r → SavingsWellFormed r := by
  intro r h
  unfold s3LifecycleStep at h
  split at h
  · obtain rfl := Option.some.inj h
    refine ⟨round2_nonneg ?_, round2_idem _⟩
    have hsz : 0 ≤ b.sizeBytes / BYTES_PER_GB :=
      div_nonneg hb (by norm_num [BYTES_PER_GB])
    exact mul_nonneg (mul_nonneg hsz
      (by norm_num [S3_STANDARD_PER_GB, S3_GLACIER_PER_GB]))
      (by norm_num [CONSERVATIVE_FACTOR])
  · cases h

theorem rdsStep_wellformed (j : RDSInstance) :
    ∀ r, rdsDownsizeStep j = some r → SavingsWellFormed r := by
  intro r h
  unfold rdsDownsizeStep at h
  split at h
  · cases h
  · split at h
    · obtain rfl := Option.some.inj h
      refine ⟨round2_nonneg ?_, round2_idem _⟩
      have hp : 0 ≤ (RDS_HOURLY_PRICES.lookup j.dbInstanceClass).getD 0.342 :=
        lookupD_nonneg rdsPrices_nonneg (by norm_num)
      have h730 : (0:ℚ) ≤ HOURS_IN_MONTH := by norm_num [HOURS_IN_MONTH]
      have hc : (0:ℚ) ≤ CONSERVATIVE_FACTOR := by norm_num [CONSERVATIVE_FACTOR]
      exact mul_nonneg (mul_nonneg (mul_nonneg hp h730) (by norm_num)) hc
    · cases h

theorem lambdaStep_wellformed (fn : LambdaFunction) (hm : 0 ≤ fn.memoryMB)
    (ht : 0 ≤ fn.timeoutSeconds) :
    ∀ r, lambdaStep fn = some r → SavingsWellFormed r := by
  intro r h
  unfold lambdaStep at h
  simp only [] at h
  split at h
  · obtain rfl := Option.some.inj h
    refine ⟨round2_nonneg ?_, round2_idem _⟩
    exact mul_nonneg (mul_nonneg (mul_nonneg
      (mul_nonneg (div_nonneg hm (by norm_num)) ht) (by norm_num))
      (by norm_num [LAMBDA_PRICE_PER_GB_SECOND])) (by norm_num)
  · split at h
    · split at h
      · split at h
        · obtain rfl := Option.some.inj h
          refine ⟨round2_nonneg ?_, round2_idem _⟩
          exact mul_nonneg (le_max_left 0 _)
            (by norm_num [LAMBDA_PRICE_PER_GB_SECOND])
        · cases h
      · cases h
    · cases h

theorem elbStep_wellformed (lb : LoadBalancerInfo) :
    ∀ r, elbIdleStep lb = some r → SavingsWellFormed r := by
  intro r h
  unfold elbIdleStep at h
  simp only [] at h
  repeat' split at h
  all_goals first
    | (obtain rfl := Option.some.inj h
       exact ⟨round2_nonneg (by norm_num [NLB_HOURLY, ALB_HOURLY, HOURS_IN_MONTH]),
         round2_idem _⟩)
    | cases h

theorem eipStep_wellformed (eip : ElasticIPInfo) :
    ∀ r, eipUnusedStep eip = some r → SavingsWellFormed r := by
  intro r h
  unfold eipUnusedStep at h
  split at h
  · cases h
  · obtain rfl := Option.some.inj h
    refine ⟨round2_nonneg ?_, round2_idem _⟩
    norm_num [ELASTIC_IP_HOURLY_UNUSED, HOURS_IN_MONTH]

theorem natStep_wellformed (nat : NatGatewayInfo)
    (hn : 0 ≤ nat.bytesProcessedPerDay) :
    ∀ r, natIdleStep nat = some r → SavingsWellFormed r := by
  intro r h
  unfold natIdleStep at h
  simp only [] at h
  repeat' split at h
  all_goals first
    | (obtain rfl := Option.some.inj h
       refine ⟨round2_nonneg ?_, round2_idem _⟩
       have hd : 0 ≤ nat.bytesProcessedPerDay / BYTES_PER_GB :=
         div_nonneg hn (by norm_num [BYTES_PER_GB])
       exact add_nonneg (by norm_num [NAT_GATEWAY_HOURLY, HOURS_IN_MONTH])
         (mul_nonneg (mul_nonneg hd (by norm_num)) (by norm_num [NAT_GATEWAY_PER_GB])))
    | cases h

/-- Claim C8: for every input descriptor list with non-negative numeric fields,
every recommendation emitted by any of the eight analyzers has
estimatedMonthlySavings that is non-negative and already rounded to two
decimal places. -/
theorem analyzers_savings_nonneg_rounded :
    (∀ (instances : List EC2Instance) (metrics : List CloudWatchMetric),
       ∀ r ∈ analyzeEC2Downsizing instances metrics, SavingsWellFormed r) ∧
    (∀ (volumes : List EBSVolume) (now : ℤ), (∀ v ∈ volumes, 0 ≤ v.size) →
       ∀ r ∈ analyzeEBSOrphaned volumes now, SavingsWellFormed r) ∧
    (∀ buckets : List S3BucketInfo, (∀ b ∈ buckets, 0 ≤ b.sizeBytes) →
       ∀ r ∈ analyzeS3Lifecycle buckets, SavingsWellFormed r) ∧
    (∀ instances : List RDSInstance,
       ∀ r ∈ analyzeRDSDownsizing instances, SavingsWellFormed r) ∧
    (∀ functions : List LambdaFunction,
       (∀ f ∈ functions, 0 ≤ f.memoryMB ∧ 0 ≤ f.timeoutSeconds) →
       ∀ r ∈ analyzeLambdaOptimization functions, SavingsWellFormed r) ∧
    (∀ loadBalancers : List LoadBalancerInfo,
       ∀ r ∈ analyzeELBIdle loadBalancers, SavingsWellFormed r) ∧
    (∀ eips : List ElasticIPInfo,
       ∀ r ∈ analyzeElasticIPUnused eips, SavingsWellFormed r) ∧
    (∀ natGateways : List NatGatewayInfo,
       (∀ n ∈ natGateways, 0 ≤ n.bytesProcessedPerDay) →
       ∀ r ∈ analyzeNatGatewayIdle natGateways, SavingsWellFormed r) := by
  refine ⟨?_, ?_, ?_, ?_, ?_, ?_, ?_, ?_⟩
  · intro instances metrics
    exact filterMap_savings _ _ (fun j _ r h => ec2Step_wellformed metrics j r h)
  · intro volumes now hvol
    exact filterMap_savings _ _ (fun v hv r h => ebsStep_wellformed now v (hvol v hv) r h)
  · intro buckets hb
    exact filterMap_savings _ _ (fun b hmem r h => s3Step_wellformed b (hb b hmem) r h)
  · intro instances
    exact filterMap_savings _ _ (fun j _ r h => rdsStep_wellformed j r h)
  · intro functions hf
    exact filterMap_savings _ _
      (fun f hmem r h => lambdaStep_wellformed f (hf f hmem).1 (hf f hmem).2 r h)
  · intro loadBalancers
    exact filterMap_savings _ _ (fun lb _ r h => elbStep_wellformed lb r h)
  · intro eips
    exact filterMap_savings _ _ (fun eip _ r h => eipStep_wellformed eip r h)
  · intro natGateways hn
    exact filterMap_savings _ _ (fun n hmem r h => natStep_wellformed n (hn n hmem) r h)

def c8nat : NatGatewayInfo :=
  { natGatewayId := "nat-1"
    state := "available"
    subnetId := "subnet-1"
    vpcId := "vpc-1"
    createdAt := 0
    bytesProcessedPerDay := 0 }

/-- Witness for C8: the NAT-idle recommendation emitted for a zero-traffic
gateway has a non-negative, two-decimal savings figure. -/
theorem analyzers_savings_nonneg_rounded_witness :
    SavingsWellFormed ((analyzeNatGatewayIdle [c8nat]).headI) := by
  have hstep : ∃ rec, natIdleStep c8nat = some rec := by
    unfold natIdleStep
    rw [if_neg (by norm_num [c8nat]), if_pos (by norm_num [c8nat, BYTES_PER_GB])]
    exact ⟨_, rfl⟩
  obtain ⟨rec, hrec⟩ := hstep
  have hne : analyzeNatGatewayIdle [c8nat] ≠ [] := by
    simp [analyzeNatGatewayIdle, List.filterMap_cons, hrec]
  exact analyzers_savings_nonneg_rounded.2.2.2.2.2.2.2 [c8nat]
    (by
      intro n hn
      rw [List.mem_singleton] at hn
      subst hn
      norm_num [c8nat])
    _ (headI_mem hne)

-- ── Claim C9 ──

theorem ebsOrphanStep_shift (now d : ℤ) (v : EBSVolume) :
    ebsOrphanStep (now + d) { v with createTime := v.createTime + d } =
      ebsOrphanStep now v := by
  obtain ⟨vid, size, vtype, state, att, ct⟩ := v
  unfold ebsOrphanStep
  dsimp only
  rw [show daysSinceCreation (now + d) (ct + d) = daysSinceCreation now ct from by
    unfold daysSinceCreation
    rw [show now + d - (ct + d) = now - ct from by ring]]

/-- Claim C9: every analyzer is deterministic given (inputs, now). In the
embedding each analyzer is a pure function of its descriptor list alone — with
the clock read of heuristic 2 surfaced as the explicit now parameter — so two
invocations of analyzeEBSOrphaned with the same volume list and the same now
produce identical recommendation lists; moreover the EBS analyzer depends on
(volumes, now) only through the age differences: shifting every createTime and
now by the same amount leaves the output unchanged. -/
theorem analyzer_determinism :
    (∀ (vs1 vs2 : List EBSVolume) (now1 now2 : ℤ), vs1 = vs2 → now1 = now2 →
      analyzeEBSOrphaned vs1 now1 = analyzeEBSOrphaned vs2 now2) ∧
    (∀ (a b : List EC2Instance) (ma mb : List CloudWatchMetric), a = b → ma = mb →
      analyzeEC2Downsizing a ma = analyzeEC2Downsizing b mb) ∧
    (∀ a b : List S3BucketInfo, a = b → analyzeS3Lifecycle a = analyzeS3Lifecycle b) ∧
    (∀ a b : List RDSInstance, a = b → analyzeRDSDownsizing a = analyzeRDSDownsizing b) ∧
    (∀ a b : List LambdaFunction, a = b →
      analyzeLambdaOptimization a = analyzeLambdaOptimization b) ∧
    (∀ a b : List LoadBalancerInfo, a = b → analyzeELBIdle a = analyzeELBIdle b) ∧
    (∀ a b : List ElasticIPInfo, a = b →
      analyzeElasticIPUnused a = analyzeElasticIPUnused b) ∧
    (∀ a b : List NatGatewayInfo, a = b →
      analyzeNatGatewayIdle a = analyzeNatGatewayIdle b) ∧
    (∀ (volumes : List EBSVolume) (now d : ℤ),
      analyzeEBSOrphaned
        (volumes.map (fun v => { v with createTime := v.createTime + d })) (now + d) =
      analyzeEBSOrphaned volumes now) := by
  refine ⟨?_, ?_, ?_, ?_, ?_, ?_, ?_, ?_, ?_⟩
  · intro vs1 vs2 now1 now2 h1 h2
    rw [h1, h2]
  · intro a b ma mb h1 h2
    rw [h1, h2]
  · intro a b h
    rw [h]
  · intro a b h
    rw [h]
  · intro a b h
    rw [h]
  · intro a b h
    rw [h]
  · intro a b h
    rw [h]
  · intro a b h
    rw [h]
  · intro volumes now d
    unfold analyzeEBSOrphaned
    rw [List.filterMap_map]
    congr 1
    funext v
    exact ebsOrphanStep_shift now d v

def c9vol : EBSVolume :=
  { volumeId := "vol-9"
    size := 100
    volumeType := "gp2"
    state := "available"
    attachments := []
    createTime := 0 }

/-- Witness for C9: two invocations of the EBS analyzer on the same volume
list and the same now coincide. -/
theorem analyzer_determinism_witness :
    analyzeEBSOrphaned [c9vol] 1000000000 = analyzeEBSOrphaned [c9vol] 1000000000 :=
  analyzer_determinism.1 [c9vol] [c9vol] 1000000000 1000000000 rfl rfl

end Finops
